import Mathlib

/-!
Shallow embedding of the ollama-api-wrapper repository: the prompt builder,
backend client and generation orchestrator of src/llm_wrapper.py, and the
streaming gateway generator of src/app.py.  External effects are made
explicit data: the tokenizer (tiktoken cl100k_base) is an abstract pure
function tok : String -> Nat, one HTTP call to the backend is described by a
transport-outcome value, JSON parsing (json.loads) is an abstract function
String -> Option J, and Python generators become the lists of elements they
yield.
-/

/-- UsageCounters: the usage dict attached to every emitted result
(prompt_tokens, completion_tokens, total_tokens). -/
structure Usage where
  prompt_tokens : Nat
  completion_tokens : Nat
  total_tokens : Nat
  deriving DecidableEq, Repr

/-- Invariant claimed for UsageCounters: total equals prompt plus completion. -/
def usageOk (u : Usage) : Prop :=
  u.total_tokens = u.prompt_tokens + u.completion_tokens

/-- Embedding of OllamaApiWrapper._combine_usage: field-wise sum of two
usage dicts. -/
def combine_usage (usage1 usage2 : Usage) : Usage :=
  ⟨usage1.prompt_tokens + usage2.prompt_tokens,
   usage1.completion_tokens + usage2.completion_tokens,
   usage1.total_tokens + usage2.total_tokens⟩

/-- Result dict of the non-streaming orchestrator paths and of each
free-form streamed element: a response text together with usage. -/
structure GenResult where
  response : String
  usage : Usage
  deriving DecidableEq, Repr

/-- Character class of the sanitizer regex: the complement of
[^\w\s.,!?-], i.e. word characters, whitespace, and . , ! ? - .
Word characters and whitespace are modelled over the ASCII alphabet. -/
def allowedChar (c : Char) : Bool :=
  c.isAlphanum || c == '_' || c.isWhitespace ||
    c == '.' || c == ',' || c == '!' || c == '?' || c == '-'

/-- Embedding of OllamaApiWrapper.sanitize_input: drop every character
outside the allowed class, then truncate to 1000 characters. -/
def sanitize_input (input_string : String) : String :=
  String.mk ((input_string.data.filter allowedChar).take 1000)

/-- Embedding of the Python str.capitalize method: first character
upper-cased, all remaining characters lower-cased. -/
def py_capitalize (s : String) : String :=
  match s.data with
  | [] => ""
  | c :: cs => String.mk (c.toUpper :: cs.map Char.toLower)

/-- Element of the heterogeneous input list accepted by construct_prompt:
a dict (whose role and content keys may each be absent), a plain string,
or a value of any other type. -/
inductive MsgElem where
  | dict (role : Option String) (content : Option String)
  | str (s : String)
  | other
  deriving DecidableEq, Repr

/-- Rendering of one list element inside the construct_prompt loop:
a dict renders as "{Role}: {content}" with the role capitalized and the
content sanitized (absent keys default to the empty string), a plain string
renders sanitized, and any other value appends nothing. -/
def partRender : MsgElem → Option String
  | .dict role content =>
    some (py_capitalize (role.getD "") ++ ": " ++ sanitize_input (content.getD ""))
  | .str s => some (sanitize_input s)
  | .other => none

/-- Embedding of the Python str.join method used as "\n\n".join(parts). -/
def join_sep (sep : String) : List String → String
  | [] => ""
  | [p] => p
  | p :: q :: rest => p ++ sep ++ join_sep sep (q :: rest)

/-- Prompt construction over a message list: render each element with
partRender (skipping elements that render to nothing, as the source loop
does) and join with a blank-line separator. -/
def construct_prompt_list (input_data : List MsgElem) : String :=
  join_sep "\n\n" (input_data.filterMap partRender)

/-- Input accepted by construct_prompt: a plain string or a list. -/
inductive InputData where
  | str (s : String)
  | list (ms : List MsgElem)
  deriving DecidableEq, Repr

/-- Embedding of OllamaApiWrapper.construct_prompt. -/
def construct_prompt : InputData → String
  | .str s => sanitize_input s
  | .list ms => construct_prompt_list ms

/-- Parsed body of one non-streaming backend call as inspected by the
orchestrator: a dict with an error key, a dict with a response text field,
or a dict with neither. -/
inductive ApiResult where
  | err (msg : String)
  | ok (text : String)
  | malformed
  deriving DecidableEq, Repr

/-- Parsed element of a streaming backend call as inspected by the
orchestrator: a dict with an error key, a dict with a response text field,
or a dict with neither. -/
inductive Chunk where
  | err (msg : String)
  | ok (text : String)
  | other
  deriving DecidableEq, Repr

/-- Text extracted from a stream chunk by chunk.get of the response key
with default empty string. -/
def chunkText : Chunk → String
  | .err _ => ""
  | .ok t => t
  | .other => ""

/-- Predicate for the error-shape test (isinstance dict and error key
present) applied to a stream chunk. -/
def isErrChunk : Chunk → Bool
  | .err _ => true
  | _ => false

/-- Outcome of the HTTP transport for one blocking call: the
requests.RequestException path (connection error, non-2xx status raised by
raise_for_status, body that is not JSON) with its message, or a parsed body. -/
inductive TransportB where
  | failure (msg : String)
  | ok (r : ApiResult)
  deriving DecidableEq, Repr

/-- Outcome of the HTTP transport for one streaming call: the
requests.RequestException path with its message, or the raw body lines. -/
inductive TransportS where
  | failure (msg : String)
  | ok (lines : List String)
  deriving DecidableEq, Repr

/-- Error message prefix produced by the except branch of _make_api_call. -/
def apiFailText (msg : String) : String :=
  "API request failed: " ++ msg

/-- Embedding of OllamaApiWrapper._make_api_call with stream false:
a transport failure becomes the in-band value with an error key; a
successful call returns the parsed body. -/
def make_api_call_nostream : TransportB → ApiResult
  | .failure msg => .err (apiFailText msg)
  | .ok r => r

/-- Embedding of OllamaApiWrapper._process_stream over the response body
lines, with json.loads on one line abstracted as parseLine: falsy (empty)
lines are skipped, a parsed line is yielded as a chunk, and a line that
fails to parse yields an error-shaped chunk in-stream. -/
def process_stream (parseLine : String → Option Chunk) : List String → List Chunk
  | [] => []
  | l :: ls =>
    if l = "" then process_stream parseLine ls
    else
      (match parseLine l with
       | some c => c
       | none => Chunk.err "Failed to parse streaming response")
        :: process_stream parseLine ls

/-- Embedding of OllamaApiWrapper._make_api_call with stream true: a
transport failure returns the error dict itself (left summand) instead of
a generator; a successful call returns the chunk sequence produced by
_process_stream. -/
def make_api_call_stream (parseLine : String → Option Chunk) :
    TransportS → Sum ApiResult (List Chunk)
  | .failure msg => .inl (.err (apiFailText msg))
  | .ok lines => .inr (process_stream parseLine lines)

/-- Fallback text returned by _generate_full_response when every attempt
lacked the response field. -/
def fallbackText : String :=
  "Failed to generate response after multiple attempts"

/-- Embedding of the retry loop of OllamaApiWrapper._generate_full_response.
The backend is a function from the attempt index to the parsed body of that
attempt; pt is the token count of the prompt; the fuel argument is the
number of remaining attempts.  Returns the result dict together with the
number of backend calls made. -/
def generate_full_response_aux (tok : String → Nat) (bk : Nat → ApiResult) (pt : Nat) :
    Nat → Nat → GenResult × Nat
  | _, 0 => (⟨fallbackText, ⟨pt, 0, pt⟩⟩, 0)
  | attempt, fuel + 1 =>
    match bk attempt with
    | .err m => (⟨m, ⟨pt, 0, pt⟩⟩, 1)
    | .ok t => (⟨t, ⟨pt, tok t, pt + tok t⟩⟩, 1)
    | .malformed =>
      let r := generate_full_response_aux tok bk pt (attempt + 1) fuel
      (r.1, r.2 + 1)

/-- Embedding of OllamaApiWrapper._generate_full_response, also reporting
how many backend calls were made. -/
def generate_full_response_run (tok : String → Nat) (maxRetries : Nat)
    (bk : Nat → ApiResult) (prompt : String) : GenResult × Nat :=
  generate_full_response_aux tok bk (tok prompt) 0 maxRetries

/-- Result dict of OllamaApiWrapper._generate_full_response. -/
def generate_full_response (tok : String → Nat) (maxRetries : Nat)
    (bk : Nat → ApiResult) (prompt : String) : GenResult :=
  (generate_full_response_run tok maxRetries bk prompt).1

/-- Embedding of the loop body of OllamaApiWrapper._stream_response,
generalized over the completion-token count accumulated so far. -/
def stream_response_from (tok : String → Nat) (pt : Nat) :
    Nat → List Chunk → List GenResult
  | _, [] => []
  | ct, .err m :: _ => [⟨m, ⟨pt, ct, pt + ct⟩⟩]
  | ct, .ok t :: cs =>
    ⟨t, ⟨pt, ct + tok t, pt + (ct + tok t)⟩⟩ :: stream_response_from tok pt (ct + tok t) cs
  | ct, .other :: cs =>
    ⟨"", ⟨pt, ct + tok "", pt + (ct + tok "")⟩⟩ :: stream_response_from tok pt (ct + tok "") cs

/-- Embedding of OllamaApiWrapper._stream_response over the chunk sequence
of one streaming backend call. -/
def stream_response (tok : String → Nat) (prompt : String) (cs : List Chunk) :
    List GenResult :=
  stream_response_from tok (tok prompt) 0 cs

/-- Dict built by OllamaApiWrapper.create_safe_json_response. -/
structure SafeJson where
  success : Bool
  status : String
  response : String
  deriving DecidableEq, Repr

/-- Embedding of OllamaApiWrapper.create_safe_json_response: when the
success argument is absent it defaults to whether status is the literal
success. -/
def create_safe_json_response (status message : String) (succ : Option Bool) : SafeJson :=
  ⟨succ.getD (status == "success"), status, message⟩

/-- Value of the response key of one strict-JSON streamed element: either
the JSON value parsed from the accumulated buffer, or a safe-json dict. -/
inductive JPayload (J : Type) where
  | json (v : J)
  | safe (s : SafeJson)
  deriving DecidableEq, Repr

/-- Element yielded by _stream_json_formatting: a response payload together
with combined usage. -/
structure JElem (J : Type) where
  response : JPayload J
  usage : Usage
  deriving DecidableEq, Repr

/-- Predicate selecting the success elements (parsed JSON payload). -/
def isSuccessElem {J : Type} : JElem J → Bool
  | ⟨.json _, _⟩ => true
  | _ => false

/-- Predicate selecting the elements whose payload is a safe-json dict with
error status. -/
def isErrStatusElem {J : Type} : JElem J → Bool
  | ⟨.safe s, _⟩ => s.status == "error"
  | _ => false

/-- Phase-2 usage dict built inside _stream_json_formatting from the token
count of the formatting prompt and the formatting tokens accumulated so far. -/
def phase2Usage (tok : String → Nat) (json_prompt : String) (ft : Nat) : Usage :=
  ⟨tok json_prompt, ft, tok json_prompt + ft⟩

/-- Message of the final error element of _stream_json_formatting. -/
def jsonFailMsg : String :=
  "Failed to create valid JSON from LLM response"

/-- Embedding of the loop of OllamaApiWrapper._stream_json_formatting,
generalized over the accumulated buffer and formatting-token count.
json.loads over the accumulated buffer is abstracted as parse.  An
error-shaped chunk yields one error element and stops; otherwise the chunk
text is appended to the buffer and the buffer is parsed: on success exactly
one element with the parsed value is yielded and the loop returns without
consuming further chunks, on failure a streaming-status element is yielded
and the loop continues; an exhausted stream yields one final error element. -/
def stream_json_formatting_from {J : Type} (tok : String → Nat)
    (parse : String → Option J) (json_prompt : String) (initial_usage : Usage) :
    String → Nat → List Chunk → List (JElem J)
  | _, ft, [] =>
    [⟨.safe (create_safe_json_response "error" jsonFailMsg none),
      combine_usage initial_usage (phase2Usage tok json_prompt ft)⟩]
  | _, ft, .err m :: _ =>
    [⟨.safe (create_safe_json_response "error" m none),
      combine_usage initial_usage (phase2Usage tok json_prompt ft)⟩]
  | buf, ft, .ok t :: cs =>
    match parse (buf ++ t) with
    | some v =>
      [⟨.json v,
        combine_usage initial_usage (phase2Usage tok json_prompt (ft + tok t))⟩]
    | none =>
      ⟨.safe (create_safe_json_response "streaming" t none),
        combine_usage initial_usage (phase2Usage tok json_prompt (ft + tok t))⟩
        :: stream_json_formatting_from tok parse json_prompt initial_usage
             (buf ++ t) (ft + tok t) cs
  | buf, ft, .other :: cs =>
    match parse (buf ++ "") with
    | some v =>
      [⟨.json v,
        combine_usage initial_usage (phase2Usage tok json_prompt (ft + tok ""))⟩]
    | none =>
      ⟨.safe (create_safe_json_response "streaming" "" none),
        combine_usage initial_usage (phase2Usage tok json_prompt (ft + tok ""))⟩
        :: stream_json_formatting_from tok parse json_prompt initial_usage
             (buf ++ "") (ft + tok "") cs

/-- Embedding of OllamaApiWrapper._stream_json_formatting: the loop started
with an empty buffer and zero formatting tokens. -/
def stream_json_formatting {J : Type} (tok : String → Nat)
    (parse : String → Option J) (json_prompt : String) (initial_usage : Usage)
    (cs : List Chunk) : List (JElem J) :=
  stream_json_formatting_from tok parse json_prompt initial_usage "" 0 cs

/-- Helper for the Python substring test: whether the first list is an
initial segment of the second. -/
def headMatches : List Char → List Char → Bool
  | [], _ => true
  | _ :: _, [] => false
  | a :: as, b :: bs => a == b && headMatches as bs

/-- Helper for the Python substring test: whether the first list occurs as
a contiguous segment of the second. -/
def containsSeq (n : List Char) : List Char → Bool
  | [] => headMatches n []
  | b :: bs => headMatches n (b :: bs) || containsSeq n bs

/-- Embedding of the Python expression needle in haystack on strings:
substring containment. -/
def strContains (needle hay : String) : Bool :=
  containsSeq needle.data hay.data

/-- Embedding of OllamaApiWrapper._process_json_response: the phase-2
response text with usage combined from both phases. -/
def process_json_response (json_response : GenResult) (initial_usage : Usage) :
    GenResult :=
  ⟨json_response.response, combine_usage initial_usage json_response.usage⟩

/-- Embedding of the non-streaming branch of
OllamaApiWrapper._generate_json_response.  fmt is the fixed JSON formatting
instruction text; bk1 and bk2 give the backend bodies for the phase-1 and
phase-2 attempts.  The gate is the source test: the literal substring error
occurring in the phase-1 response text.  Returns the result together with
whether phase 2 was invoked. -/
def generate_json_response_run (tok : String → Nat) (fmt : String)
    (maxRetries : Nat) (bk1 bk2 : Nat → ApiResult) (prompt : String) :
    GenResult × Bool :=
  let initial_response := generate_full_response tok maxRetries bk1 prompt
  if strContains "error" initial_response.response then (initial_response, false)
  else
    let json_prompt := fmt ++ initial_response.response
    let json_response := generate_full_response tok maxRetries bk2 json_prompt
    (process_json_response json_response initial_response.usage, true)

/-- Embedding of the streaming branch of
OllamaApiWrapper._generate_json_response: the same substring gate, then the
phase-2 chunk stream is formatted by _stream_json_formatting.  Returns
either the phase-1 result (gate taken) or the yielded element list,
together with whether phase 2 was invoked. -/
def generate_json_response_stream {J : Type} (tok : String → Nat)
    (parse : String → Option J) (fmt : String) (maxRetries : Nat)
    (bk1 : Nat → ApiResult) (prompt : String) (cs : List Chunk) :
    Sum GenResult (List (JElem J)) × Bool :=
  let initial_response := generate_full_response tok maxRetries bk1 prompt
  if strContains "error" initial_response.response then (.inl initial_response, false)
  else
    (.inr (stream_json_formatting tok parse (fmt ++ initial_response.response)
            initial_response.usage cs), true)

/-- Python value found under the response key of one orchestrator element
as seen by the gateway: a string, or any non-string value (such as the
dicts produced in strict-JSON mode). -/
inductive RespVal where
  | str (s : String)
  | nonstr
  deriving DecidableEq, Repr

/-- Classification of a strict-JSON streamed element as the Python value
the gateway reads from its response key: safe-json dicts are non-strings;
the type of a parsed JSON value is given by toVal. -/
def elemToResp {J : Type} (toVal : J → RespVal) : JElem J → RespVal
  | ⟨.json v, _⟩ => toVal v
  | ⟨.safe _, _⟩ => .nonstr

/-- Literal terminator event of the gateway streaming generator. -/
def doneEvent : String :=
  "data: [DONE]\n\n"

/-- Embedding of the loop of generate_streaming_response in src/app.py,
generalized over the accumulated-JSON buffer and completion-token count.
parseDump abstracts json.loads followed by json.dumps with indent; mkEvent
abstracts the serialized data event built from
format_chunk_as_openai_response (content, prompt, completion and total
tokens; the random id and timestamp are inside the abstraction).  Applying
count_tokens to a non-string response value raises TypeError: the generator
then stops with no further events and no terminator, reported by the true
flag. -/
def generate_streaming_from (tok : String → Nat) (parseDump : String → Option String)
    (mkEvent : String → Nat → Nat → Nat → String) (json_mode : Bool) (pt : Nat) :
    String → Nat → List RespVal → List String × Bool
  | accJ, ct, [] =>
    ((if json_mode && !(accJ == "") then
        match parseDump accJ with
        | some fj => [mkEvent fj pt ct (pt + ct)]
        | none => [mkEvent accJ pt ct (pt + ct)]
      else []) ++ [doneEvent], false)
  | _, _, .nonstr :: _ => ([], true)
  | accJ, ct, .str t :: vs =>
    if json_mode then
      match parseDump (accJ ++ t) with
      | some fj =>
        let r := generate_streaming_from tok parseDump mkEvent json_mode pt
                   "" (ct + tok t) vs
        (mkEvent fj pt (ct + tok t) (pt + (ct + tok t)) :: r.1, r.2)
      | none =>
        generate_streaming_from tok parseDump mkEvent json_mode pt
          (accJ ++ t) (ct + tok t) vs
    else
      let r := generate_streaming_from tok parseDump mkEvent json_mode pt
                 accJ (ct + tok t) vs
      (mkEvent t pt (ct + tok t) (pt + (ct + tok t)) :: r.1, r.2)

/-- Embedding of generate_streaming_response in src/app.py over the element
sequence produced by the orchestrator, reduced to the response values the
gateway reads.  Returns the yielded events together with whether the
generator aborted with a TypeError. -/
def generate_streaming_response (tok : String → Nat)
    (parseDump : String → Option String) (mkEvent : String → Nat → Nat → Nat → String)
    (json_mode : Bool) (pt : Nat) (chunks : List RespVal) : List String × Bool :=
  generate_streaming_from tok parseDump mkEvent json_mode pt "" 0 chunks

/-- Text accumulated from a chunk sequence, as the buffer of
_stream_json_formatting accumulates it. -/
def accText : List Chunk → String
  | [] => ""
  | c :: cs => chunkText c ++ accText cs

/-- Token count accumulated from a chunk sequence, as the formatting-token
counter of _stream_json_formatting accumulates it. -/
def sumTok (tok : String → Nat) : List Chunk → Nat
  | [] => 0
  | c :: cs => tok (chunkText c) + sumTok tok cs

/-- Well-formed message for the gateway contract: a dict carrying both keys
whose role is one of system, user, assistant. -/
def validMsg : MsgElem → Bool
  | .dict (some r) (some _) => r == "system" || r == "user" || r == "assistant"
  | _ => false

/-! Helper lemmas about strings and the sanitizer. -/

/-- Left identity of string append. -/
theorem str_empty_append (s : String) : "" ++ s = s := by
  cases s; rfl

/-- Characters surviving sanitization belong to the allowed class. -/
theorem sanitize_chars (s : String) :
    ∀ c ∈ (sanitize_input s).data, allowedChar c = true := by
  intro c hc
  exact List.of_mem_filter (List.mem_of_mem_take hc)

/-- Sanitized text never exceeds 1000 characters. -/
theorem sanitize_length (s : String) : (sanitize_input s).length ≤ 1000 := by
  show ((s.data.filter allowedChar).take 1000).length ≤ 1000
  simp

/-- C8: sanitization is idempotent: for every string s,
sanitize_input (sanitize_input s) = sanitize_input s. -/
theorem sanitize_idempotent (s : String) :
    sanitize_input (sanitize_input s) = sanitize_input s := by
  show String.mk ((((s.data.filter allowedChar).take 1000).filter allowedChar).take 1000)
    = String.mk ((s.data.filter allowedChar).take 1000)
  congr 1
  rw [List.filter_eq_self.mpr, List.take_take, min_self]
  intro c hc
  exact List.of_mem_filter (List.mem_of_mem_take hc)

/-- C9: construct_prompt is total over heterogeneous lists; an element that
is neither dict nor string is dropped anywhere in the list, a dict missing
the role key renders with an empty capitalized role so its segment begins
with a colon-space, a dict missing the content key renders with empty
content, and a plain string element is included sanitized with no role
prefix. -/
theorem construct_prompt_heterogeneous :
    (∀ l1 l2 : List MsgElem,
      construct_prompt (.list (l1 ++ MsgElem.other :: l2))
        = construct_prompt (.list (l1 ++ l2)))
    ∧ (∀ c : String,
        construct_prompt (.list [.dict none (some c)]) = ": " ++ sanitize_input c)
    ∧ (∀ r : String,
        construct_prompt (.list [.dict (some r) none]) = py_capitalize r ++ ": ")
    ∧ (∀ s : String, construct_prompt (.list [.str s]) = sanitize_input s) := by
  refine ⟨?_, ?_, ?_, ?_⟩
  · intro l1 l2
    simp [construct_prompt, construct_prompt_list, List.filterMap_append,
      List.filterMap_cons, partRender]
  · intro c
    show join_sep "\n\n" [py_capitalize "" ++ ": " ++ sanitize_input c] = _
    rw [show py_capitalize "" = "" from rfl, join_sep, str_empty_append]
  · intro r
    show join_sep "\n\n" [py_capitalize r ++ ": " ++ sanitize_input ""] = _
    rw [show sanitize_input "" = "" from rfl, join_sep, String.append_empty]
  · intro s
    rfl

/-- C10: in the free-form streaming loop, a chunk without error or response
field yields an element whose text is empty and whose cumulative
completion-token count is unchanged (since tokenizing the empty string
yields zero tokens), and the stream continues with the remaining chunks. -/
theorem stream_missing_response_chunk (tok : String → Nat) (pt ct : Nat)
    (cs : List Chunk) (h : tok "" = 0) :
    stream_response_from tok pt ct (Chunk.other :: cs)
      = ⟨"", ⟨pt, ct, pt + ct⟩⟩ :: stream_response_from tok pt ct cs := by
  simp [stream_response_from, h]

/-- Witness for C10 at a concrete tokenizer and stream. -/
theorem stream_missing_response_chunk_witness :
    stream_response_from String.length 5 2 (Chunk.other :: [Chunk.ok "ab"])
      = ⟨"", ⟨5, 2, 7⟩⟩ :: stream_response_from String.length 5 2 [Chunk.ok "ab"] :=
  stream_missing_response_chunk String.length 5 2 [Chunk.ok "ab"] rfl

/-- C5: a transport failure of the backend client produces the error dict
as an in-band value (blocking and streaming mode), and a body line that
fails to parse yields an error-shaped element inside the chunk sequence
while the rest of the sequence is still produced. -/
theorem backend_client_error_values :
    (∀ msg : String, make_api_call_nostream (.failure msg) = .err (apiFailText msg))
    ∧ (∀ (parseLine : String → Option Chunk) (msg : String),
        make_api_call_stream parseLine (.failure msg) = .inl (.err (apiFailText msg)))
    ∧ (∀ (parseLine : String → Option Chunk) (l1 : List String) (bad : String)
        (l2 : List String), parseLine bad = none → bad ≠ "" →
        process_stream parseLine (l1 ++ bad :: l2)
          = process_stream parseLine l1
              ++ Chunk.err "Failed to parse streaming response"
                :: process_stream parseLine l2) := by
  refine ⟨fun _ => rfl, fun _ _ => rfl, ?_⟩
  intro pl l1 bad l2 hbad hne
  induction l1 with
  | nil => simp [process_stream, hbad, hne]
  | cons x xs ih =>
    by_cases hx : x = ""
    · simp [process_stream, hx, ih]
    · simp [process_stream, hx, ih]

/-- Witness for C5: a malformed middle line becomes an in-stream error
chunk between the parsed neighbours. -/
theorem backend_client_error_values_witness :
    process_stream (fun s => if s = "g" then some (.ok "G") else none)
        (["g"] ++ "bad" :: ["g"])
      = process_stream (fun s => if s = "g" then some (.ok "G") else none) ["g"]
          ++ Chunk.err "Failed to parse streaming response"
            :: process_stream (fun s => if s = "g" then some (.ok "G") else none) ["g"] :=
  backend_client_error_values.2.2 _ ["g"] "bad" ["g"] (by decide) (by decide)

/-- Retry loop with every attempt malformed: the fallback is returned and
the fuel is consumed one call per unit. -/
theorem generate_full_aux_all_malformed (tok : String → Nat) (bk : Nat → ApiResult)
    (pt : Nat) (h : ∀ n, bk n = .malformed) :
    ∀ fuel attempt, generate_full_response_aux tok bk pt attempt fuel
      = (⟨fallbackText, ⟨pt, 0, pt⟩⟩, fuel) := by
  intro fuel
  induction fuel with
  | zero => intro _; rfl
  | succ f ih =>
    intro a
    simp [generate_full_response_aux, h a, ih (a + 1)]

/-- Retry loop hitting an error-shaped body at relative attempt k after k
malformed bodies: the error text is returned after exactly k + 1 calls. -/
theorem generate_full_aux_err_at (tok : String → Nat) (bk : Nat → ApiResult) (pt : Nat) :
    ∀ (k fuel attempt : Nat) (m : String), k < fuel →
      (∀ j, j < k → bk (attempt + j) = .malformed) → bk (attempt + k) = .err m →
      generate_full_response_aux tok bk pt attempt fuel = (⟨m, ⟨pt, 0, pt⟩⟩, k + 1) := by
  intro k
  induction k with
  | zero =>
    intro fuel attempt m hk _ herr
    cases fuel with
    | zero => omega
    | succ f =>
      simp [generate_full_response_aux, show bk attempt = .err m by simpa using herr]
  | succ k ih =>
    intro fuel attempt m hk hmal herr
    cases fuel with
    | zero => omega
    | succ f =>
      have h0 : bk attempt = .malformed := by simpa using hmal 0 (by omega)
      have hrec := ih f (attempt + 1) m (by omega)
        (fun j hj => by
          have := hmal (j + 1) (by omega)
          rwa [show attempt + (j + 1) = attempt + 1 + j by omega] at this)
        (by rwa [show attempt + (k + 1) = attempt + 1 + k by omega] at herr)
      simp [generate_full_response_aux, h0, hrec]

/-- C4: on the non-streaming path, a backend whose every body lacks both
the error and the response field makes the orchestrator perform exactly
maxRetries calls and return the fixed fallback text with zero completion
tokens; a backend producing an error-shaped body at attempt k (after k
malformed bodies) makes it stop after k + 1 calls and return the error text
with zero completion tokens. -/
theorem retry_policy_exhaustion_and_error (tok : String → Nat) (maxRetries : Nat)
    (bk : Nat → ApiResult) (prompt : String) :
    ((∀ n, bk n = .malformed) →
      generate_full_response_run tok maxRetries bk prompt
        = (⟨fallbackText, ⟨tok prompt, 0, tok prompt⟩⟩, maxRetries))
    ∧ (∀ (k : Nat) (m : String), k < maxRetries →
        (∀ j, j < k → bk j = .malformed) → bk k = .err m →
        generate_full_response_run tok maxRetries bk prompt
          = (⟨m, ⟨tok prompt, 0, tok prompt⟩⟩, k + 1)) := by
  constructor
  · intro h
    exact generate_full_aux_all_malformed tok bk (tok prompt) h maxRetries 0
  · intro k m hk hmal herr
    exact generate_full_aux_err_at tok bk (tok prompt) k maxRetries 0 m hk
      (fun j hj => by simpa using hmal j hj) (by simpa using herr)

/-- Witness for C4: with the default three retries and an always-malformed
backend, exactly three calls are made and the fallback is returned. -/
theorem retry_policy_exhaustion_and_error_witness :
    generate_full_response_run String.length 3 (fun _ => ApiResult.malformed) "hi"
      = (⟨fallbackText, ⟨2, 0, 2⟩⟩, 3) :=
  (retry_policy_exhaustion_and_error String.length 3 (fun _ => ApiResult.malformed) "hi").1
    (fun _ => rfl)

/-! Usage-counter invariant lemmas. -/

/-- Usage records built as prompt, completion, prompt + completion satisfy
the invariant. -/
theorem usageOk_build (p c : Nat) : usageOk ⟨p, c, p + c⟩ := rfl

/-- Field-wise summation preserves the usage invariant. -/
theorem usageOk_combine {u1 u2 : Usage} (h1 : usageOk u1) (h2 : usageOk u2) :
    usageOk (combine_usage u1 u2) := by
  simp only [usageOk, combine_usage] at *
  omega

/-- Phase-2 usage records of the strict-JSON streaming loop satisfy the
invariant. -/
theorem usageOk_phase2 (tok : String → Nat) (jp : String) (ft : Nat) :
    usageOk (phase2Usage tok jp ft) := rfl

/-- Every result of the non-streaming retry loop satisfies the invariant. -/
theorem usageOk_full_aux (tok : String → Nat) (bk : Nat → ApiResult) (pt : Nat) :
    ∀ fuel attempt, usageOk ((generate_full_response_aux tok bk pt attempt fuel).1).usage := by
  intro fuel
  induction fuel with
  | zero => intro _; rfl
  | succ f ih =>
    intro a
    cases h : bk a with
    | err m => simp [generate_full_response_aux, h, usageOk]
    | ok t => simp [generate_full_response_aux, h, usageOk]
    | malformed => simpa [generate_full_response_aux, h] using ih (a + 1)

/-- Every element of the free-form streaming loop satisfies the invariant. -/
theorem usageOk_stream_from (tok : String → Nat) (pt : Nat) :
    ∀ (cs : List Chunk) (ct : Nat), ∀ e ∈ stream_response_from tok pt ct cs,
      usageOk e.usage := by
  intro cs
  induction cs with
  | nil => intro ct e he; simp [stream_response_from] at he
  | cons c rest ih =>
    intro ct e he
    cases c with
    | err m =>
      simp [stream_response_from] at he
      simp [he, usageOk]
    | ok t =>
      simp only [stream_response_from, List.mem_cons] at he
      rcases he with he | he
      · simp [he, usageOk]
      · exact ih _ e he
    | other =>
      simp only [stream_response_from, List.mem_cons] at he
      rcases he with he | he
      · simp [he, usageOk]
      · exact ih _ e he

/-- Every element of the strict-JSON formatting loop satisfies the
invariant, provided the phase-1 usage does. -/
theorem usageOk_jf_from {J : Type} (tok : String → Nat) (parse : String → Option J)
    (jp : String) (initial : Usage) (h : usageOk initial) :
    ∀ (cs : List Chunk) (buf : String) (ft : Nat),
      ∀ e ∈ stream_json_formatting_from tok parse jp initial buf ft cs,
        usageOk e.usage := by
  intro cs
  induction cs with
  | nil =>
    intro buf ft e he
    simp [stream_json_formatting_from] at he
    simp [he, usageOk_combine h (usageOk_phase2 tok jp ft)]
  | cons c rest ih =>
    intro buf ft e he
    cases c with
    | err m =>
      simp [stream_json_formatting_from] at he
      simp [he, usageOk_combine h (usageOk_phase2 tok jp ft)]
    | ok t =>
      rw [stream_json_formatting_from] at he
      cases hp : parse (buf ++ t) with
      | some v =>
        rw [hp] at he
        simp at he
        simp [he, usageOk_combine h (usageOk_phase2 tok jp (ft + tok t))]
      | none =>
        rw [hp] at he
        simp only [List.mem_cons] at he
        rcases he with he | he
        · simp [he, usageOk_combine h (usageOk_phase2 tok jp (ft + tok t))]
        · exact ih _ _ e he
    | other =>
      rw [stream_json_formatting_from] at he
      cases hp : parse (buf ++ "") with
      | some v =>
        rw [hp] at he
        simp at he
        simp [he, usageOk_combine h (usageOk_phase2 tok jp (ft + tok ""))]
      | none =>
        rw [hp] at he
        simp only [List.mem_cons] at he
        rcases he with he | he
        · simp [he, usageOk_combine h (usageOk_phase2 tok jp (ft + tok ""))]
        · exact ih _ _ e he

/-- C1: every result emitted by the orchestrator carries usage counters
with total = prompt + completion: the non-streaming result on any retry
path, every free-form streamed element, every strict-JSON streamed element
(given a phase-1 usage satisfying the invariant), the chained
non-streaming strict-JSON result, and the field-wise sum of two records
satisfying the invariant satisfies it as well. -/
theorem usage_counters_invariant :
    (∀ (tok : String → Nat) (maxRetries : Nat) (bk : Nat → ApiResult) (prompt : String),
      usageOk (generate_full_response tok maxRetries bk prompt).usage)
    ∧ (∀ (tok : String → Nat) (prompt : String) (cs : List Chunk),
        ∀ e ∈ stream_response tok prompt cs, usageOk e.usage)
    ∧ (∀ (J : Type) (tok : String → Nat) (parse : String → Option J)
        (jp : String) (initial : Usage) (cs : List Chunk), usageOk initial →
        ∀ e ∈ stream_json_formatting tok parse jp initial cs, usageOk e.usage)
    ∧ (∀ (tok : String → Nat) (fmt : String) (maxRetries : Nat)
        (bk1 bk2 : Nat → ApiResult) (prompt : String),
        usageOk (generate_json_response_run tok fmt maxRetries bk1 bk2 prompt).1.usage)
    ∧ (∀ u1 u2 : Usage, usageOk u1 → usageOk u2 → usageOk (combine_usage u1 u2)) := by
  refine ⟨?_, ?_, ?_, ?_, fun u1 u2 h1 h2 => usageOk_combine h1 h2⟩
  · intro tok mr bk prompt
    exact usageOk_full_aux tok bk (tok prompt) mr 0
  · intro tok prompt cs e he
    exact usageOk_stream_from tok (tok prompt) cs 0 e he
  · intro J tok parse jp initial cs h e he
    exact usageOk_jf_from tok parse jp initial h cs "" 0 e he
  · intro tok fmt mr bk1 bk2 prompt
    unfold generate_json_response_run
    by_cases hg : strContains "error" (generate_full_response tok mr bk1 prompt).response
    · simpa [hg] using usageOk_full_aux tok bk1 (tok prompt) mr 0
    · simp only [hg, Bool.false_eq_true, if_false, process_json_response]
      exact usageOk_combine (usageOk_full_aux tok bk1 (tok prompt) mr 0)
        (usageOk_full_aux tok bk2 (tok (fmt ++ (generate_full_response tok mr bk1 prompt).response)) mr 0)

/-- Witness for C1: the field-wise sum of two concrete records satisfying
the invariant satisfies it. -/
theorem usage_counters_invariant_witness :
    usageOk (combine_usage ⟨1, 2, 3⟩ ⟨2, 3, 5⟩) :=
  usage_counters_invariant.2.2.2.2 ⟨1, 2, 3⟩ ⟨2, 3, 5⟩ rfl rfl

/-- Counterexample for C2: the phase-1 backend body at attempt 0 is
error-shaped, with an error message whose text does not contain the literal
substring error, yet the orchestrator proceeds to phase 2 — contradicting
the claim that an error-shaped phase-1 result is always returned
immediately without invoking phase 2. -/
theorem json_mode_error_gate_cex :
    (fun _ : Nat => ApiResult.err "backend down") 0 = ApiResult.err "backend down"
    ∧ (generate_json_response_run String.length "FMT " 3
        (fun _ => ApiResult.err "backend down")
        (fun _ => ApiResult.err "backend down") "hi").2 = true := by
  constructor
  · rfl
  · decide

/-- C2 amended: phase 2 is skipped, with the phase-1 result returned
unchanged, exactly when the literal substring error occurs in the phase-1
response text; the streaming branch uses the same gate; in particular an
error-shaped phase-1 body whose message does not contain that substring
still proceeds to phase 2. -/
theorem json_mode_error_gate_amended (tok : String → Nat) (fmt : String)
    (maxRetries : Nat) (bk1 bk2 : Nat → ApiResult) (prompt : String) :
    ((generate_json_response_run tok fmt maxRetries bk1 bk2 prompt).2 = false
       ↔ strContains "error" (generate_full_response tok maxRetries bk1 prompt).response = true)
    ∧ ((generate_json_response_run tok fmt maxRetries bk1 bk2 prompt).2 = false →
        (generate_json_response_run tok fmt maxRetries bk1 bk2 prompt).1
          = generate_full_response tok maxRetries bk1 prompt)
    ∧ (∀ (J : Type) (parse : String → Option J) (cs : List Chunk),
        (generate_json_response_stream (J := J) tok parse fmt maxRetries bk1 prompt cs).2
          = (generate_json_response_run tok fmt maxRetries bk1 bk2 prompt).2)
    ∧ (∀ m : String, 0 < maxRetries → bk1 0 = .err m →
        strContains "error" m = false →
        (generate_json_response_run tok fmt maxRetries bk1 bk2 prompt).2 = true) := by
  by_cases hg : strContains "error" (generate_full_response tok maxRetries bk1 prompt).response = true
  · refine ⟨by simp [generate_json_response_run, hg], ?_, ?_, ?_⟩
    · intro _
      simp [generate_json_response_run, hg]
    · intro J parse cs
      simp [generate_json_response_run, generate_json_response_stream, hg]
    · intro m hmr herr hnc
      have h1 : generate_full_response tok maxRetries bk1 prompt
          = ⟨m, ⟨tok prompt, 0, tok prompt⟩⟩ := by
        cases maxRetries with
        | zero => omega
        | succ f =>
          simp [generate_full_response, generate_full_response_run,
            generate_full_response_aux, herr]
      rw [h1] at hg
      exact absurd (show strContains "error" m = true from hg) (by simp [hnc])
  · refine ⟨by simp [generate_json_response_run, hg], ?_, ?_, ?_⟩
    · intro hfalse
      exact absurd hfalse (by simp [generate_json_response_run, hg])
    · intro J parse cs
      simp [generate_json_response_run, generate_json_response_stream, hg]
    · intro m hmr herr hnc
      simp [generate_json_response_run, hg]

/-- Witness for C2 amended: a concrete error-shaped phase-1 body whose
message lacks the substring causes phase 2 to be invoked. -/
theorem json_mode_error_gate_witness :
    (generate_json_response_run String.length "F" 2 (fun _ => ApiResult.err "down")
      (fun _ => ApiResult.ok "x") "p").2 = true :=
  (json_mode_error_gate_amended String.length "F" 2 (fun _ => ApiResult.err "down")
    (fun _ => ApiResult.ok "x") "p").2.2.2 "down" (by decide) rfl (by decide)

/-- Character membership distributes over the join of rendered parts: a
character of the joined string comes from a part or from the separator. -/
theorem join_sep_chars (P : Char → Prop) (sep : String) :
    ∀ parts : List String, (∀ c ∈ sep.data, P c) →
      (∀ p ∈ parts, ∀ c ∈ p.data, P c) →
      ∀ c ∈ (join_sep sep parts).data, P c := by
  intro parts
  induction parts with
  | nil => intro _ _ c hc; simp [join_sep] at hc
  | cons p ps ih =>
    intro hsep hp c hc
    cases ps with
    | nil => exact hp p (by simp) c hc
    | cons q rest =>
      simp only [join_sep, String.data_append] at hc
      rcases List.mem_append.mp hc with h | h
      · rcases List.mem_append.mp h with h2 | h2
        · exact hp p (by simp) c h2
        · exact hsep c h2
      · exact ih hsep (fun r hr => hp r (by simp [hr])) c h

/-- Counterexample for C7: a valid single-message sequence whose prompt
contains a character outside the claimed class (the colon of the role
separator). -/
theorem prompt_charset_cex :
    validMsg (.dict (some "user") (some "Hi")) = true
    ∧ (construct_prompt (.list [.dict (some "user") (some "Hi")])).data.all
        allowedChar = false := by
  constructor
  · rfl
  · decide

/-- C7 amended: for every valid message sequence, every character of the
prompt-builder output is in the allowed class or is the colon of the
role separator, and each sanitized message segment is at most 1000
characters of sanitized content. -/
theorem prompt_charset_amended (ms : List MsgElem)
    (hv : ∀ m ∈ ms, validMsg m = true) :
    (∀ c ∈ (construct_prompt (.list ms)).data, allowedChar c = true ∨ c = ':')
    ∧ (∀ s : String, (sanitize_input s).length ≤ 1000) := by
  refine ⟨?_, fun s => sanitize_length s⟩
  show ∀ c ∈ (join_sep "\n\n" (ms.filterMap partRender)).data, _
  refine join_sep_chars _ "\n\n" (ms.filterMap partRender) ?_ ?_
  · intro c hc
    have : c = '\n' := by
      rcases (by simpa using hc : c = '\n' ∨ c = '\n') with h | h <;> exact h
    left
    rw [this]
    decide
  · intro p hp c hc
    rcases List.mem_filterMap.mp hp with ⟨m, hm, hpm⟩
    have hvm := hv m hm
    cases m with
    | str s => simp [validMsg] at hvm
    | other => simp [validMsg] at hvm
    | dict ro co =>
      cases ro with
      | none => simp [validMsg] at hvm
      | some r =>
        cases co with
        | none => simp [validMsg] at hvm
        | some content =>
          have hrole : r = "system" ∨ r = "user" ∨ r = "assistant" := by
            have := by simpa [validMsg] using hvm
            tauto
          have hpe : p = py_capitalize r ++ ": " ++ sanitize_input content := by
            simpa [partRender] using hpm.symm
          rw [hpe] at hc
          simp only [String.data_append] at hc
          rcases List.mem_append.mp hc with h | h
          · rcases List.mem_append.mp h with h2 | h2
            · left
              rcases hrole with h3 | h3 | h3 <;> rw [h3] at h2
              · exact (by decide : ∀ x ∈ (py_capitalize "system").data,
                  allowedChar x = true) c h2
              · exact (by decide : ∀ x ∈ (py_capitalize "user").data,
                  allowedChar x = true) c h2
              · exact (by decide : ∀ x ∈ (py_capitalize "assistant").data,
                  allowedChar x = true) c h2
            · have : c = ':' ∨ c = ' ' := by simpa using h2
              rcases this with h3 | h3
              · right; exact h3
              · left; rw [h3]; decide
          · left
            exact sanitize_chars content c h

/-- Witness for C7 amended at a concrete valid message list and character. -/
theorem prompt_charset_witness :
    allowedChar 'U' = true ∨ 'U' = ':' :=
  (prompt_charset_amended [.dict (some "user") (some "Hi")] (by decide)).1 'U' (by decide)

/-- Free-form streaming through the gateway: when every orchestrator
element carries a string response value (as the free-form loop always
produces), the generator never aborts and its last event is the literal
done marker. -/
theorem gw_freeform_ends_done (tok : String → Nat) (parseDump : String → Option String)
    (mkEvent : String → Nat → Nat → Nat → String) (pt : Nat) :
    ∀ (cs : List RespVal) (accJ : String) (ct : Nat),
      (∀ v ∈ cs, ∃ s, v = RespVal.str s) →
      (generate_streaming_from tok parseDump mkEvent false pt accJ ct cs).2 = false
      ∧ (generate_streaming_from tok parseDump mkEvent false pt accJ ct cs).1.getLast?
          = some doneEvent := by
  have key : ∀ (x : String) (l : List String), l.getLast? = some doneEvent →
      (x :: l).getLast? = some doneEvent := by
    intro x l h
    cases l with
    | nil => simp at h
    | cons a b => rw [List.getLast?_cons_cons]; exact h
  intro cs
  induction cs with
  | nil =>
    intro accJ ct _
    exact ⟨rfl, by simp [generate_streaming_from]⟩
  | cons v vs ih =>
    intro accJ ct h
    obtain ⟨s, rfl⟩ := h v (by simp)
    have ihr := ih accJ (ct + tok s) (fun w hw => h w (by simp [hw]))
    refine ⟨?_, ?_⟩
    · simpa [generate_streaming_from] using ihr.1
    · simp only [generate_streaming_from, Bool.false_eq_true, if_false]
      exact key _ _ ihr.2

/-- C6 (code bug): in strict-JSON streaming the orchestrator elements carry
non-string response values (safe-json dicts), so the gateway generator
aborts with a TypeError when it applies the token counter to the first
element and the done marker is never emitted: at a concrete phase-2 stream
of one not-yet-parsing chunk, the element sequence maps to two non-string
response values and the gateway produces no events and the crash flag. -/
theorem gateway_done_marker_crash :
    (stream_json_formatting String.length (fun _ => (none : Option Nat)) "jp"
        ⟨3, 4, 7⟩ [Chunk.ok "x"]).map (elemToResp (fun _ => RespVal.nonstr))
      = [RespVal.nonstr, RespVal.nonstr]
    ∧ generate_streaming_response String.length (fun _ => none) (fun c _ _ _ => c)
        true 3 [RespVal.nonstr, RespVal.nonstr] = ([], true) := by
  exact ⟨rfl, rfl⟩

/-! Lemmas on the strict-JSON streaming loop. -/

/-- The strict-JSON formatting loop always yields at least one element. -/
theorem jf_ne_nil {J : Type} (tok : String → Nat) (parse : String → Option J)
    (jp : String) (initial : Usage) :
    ∀ (cs : List Chunk) (buf : String) (ft : Nat),
      stream_json_formatting_from tok parse jp initial buf ft cs ≠ [] := by
  intro cs buf ft
  cases cs with
  | nil => simp [stream_json_formatting_from]
  | cons c rest =>
    cases c with
    | err m => simp [stream_json_formatting_from]
    | ok t =>
      cases hp : parse (buf ++ t) with
      | some v => simp [stream_json_formatting_from, hp]
      | none => simp [stream_json_formatting_from, hp]
    | other =>
      cases hp : parse (buf ++ "") with
      | some v =>
        rw [String.append_empty] at hp
        simp [stream_json_formatting_from, hp]
      | none =>
        rw [String.append_empty] at hp
        simp [stream_json_formatting_from, hp]

/-- The strict-JSON formatting loop yields at most one success element. -/
theorem jf_count {J : Type} (tok : String → Nat) (parse : String → Option J)
    (jp : String) (initial : Usage) :
    ∀ (cs : List Chunk) (buf : String) (ft : Nat),
      (stream_json_formatting_from tok parse jp initial buf ft cs).countP
        isSuccessElem ≤ 1 := by
  intro cs
  induction cs with
  | nil =>
    intro buf ft
    simp [stream_json_formatting_from, List.countP_cons, isSuccessElem]
  | cons c rest ih =>
    intro buf ft
    cases c with
    | err m => simp [stream_json_formatting_from, List.countP_cons, isSuccessElem]
    | ok t =>
      cases hp : parse (buf ++ t) with
      | some v => simp [stream_json_formatting_from, hp, List.countP_cons, isSuccessElem]
      | none =>
        have h2 := ih (buf ++ t) (ft + tok t)
        simpa [stream_json_formatting_from, hp, List.countP_cons, isSuccessElem] using h2
    | other =>
      cases hp : parse (buf ++ "") with
      | some v =>
        rw [String.append_empty] at hp
        simp [stream_json_formatting_from, hp, List.countP_cons, isSuccessElem]
      | none =>
        rw [String.append_empty] at hp
        have h2 := ih buf (ft + tok "")
        simpa [stream_json_formatting_from, hp, List.countP_cons, isSuccessElem] using h2

/-- Every element of the strict-JSON formatting loop located before the
last one is not a success element. -/
theorem jf_success_last {J : Type} (tok : String → Nat) (parse : String → Option J)
    (jp : String) (initial : Usage) :
    ∀ (cs : List Chunk) (buf : String) (ft : Nat),
      ∀ e ∈ (stream_json_formatting_from tok parse jp initial buf ft cs).dropLast,
        isSuccessElem e = false := by
  intro cs
  induction cs with
  | nil => intro buf ft e he; simp [stream_json_formatting_from] at he
  | cons c rest ih =>
    intro buf ft e he
    cases c with
    | err m => simp [stream_json_formatting_from] at he
    | ok t =>
      cases hp : parse (buf ++ t) with
      | some v => simp [stream_json_formatting_from, hp] at he
      | none =>
        simp only [stream_json_formatting_from, hp] at he
        rw [List.dropLast_cons_of_ne_nil
          (jf_ne_nil tok parse jp initial rest (buf ++ t) (ft + tok t))] at he
        rcases List.mem_cons.mp he with h | h
        · rw [h]; rfl
        · exact ih (buf ++ t) (ft + tok t) e h
    | other =>
      cases hp : parse (buf ++ "") with
      | some v =>
        rw [String.append_empty] at hp
        simp [stream_json_formatting_from, hp] at he
      | none =>
        rw [String.append_empty] at hp
        simp only [stream_json_formatting_from, String.append_empty, hp] at he
        rw [List.dropLast_cons_of_ne_nil
          (jf_ne_nil tok parse jp initial rest buf (ft + tok ""))] at he
        rcases List.mem_cons.mp he with h | h
        · rw [h]; rfl
        · exact ih buf (ft + tok "") e h

/-- Once the strict-JSON formatting loop has yielded a success element,
appending further backend chunks leaves its output unchanged: backend
output after the successful parse is never consumed. -/
theorem jf_no_consume {J : Type} (tok : String → Nat) (parse : String → Option J)
    (jp : String) (initial : Usage) :
    ∀ (cs : List Chunk) (buf : String) (ft : Nat) (extra : List Chunk),
      (∃ e ∈ stream_json_formatting_from tok parse jp initial buf ft cs,
        isSuccessElem e = true) →
      stream_json_formatting_from tok parse jp initial buf ft (cs ++ extra)
        = stream_json_formatting_from tok parse jp initial buf ft cs := by
  intro cs
  induction cs with
  | nil =>
    intro buf ft extra hex
    obtain ⟨e, he, hse⟩ := hex
    simp [stream_json_formatting_from] at he
    rw [he] at hse
    simp [isSuccessElem] at hse
  | cons c rest ih =>
    intro buf ft extra hex
    cases c with
    | err m =>
      obtain ⟨e, he, hse⟩ := hex
      simp [stream_json_formatting_from] at he
      rw [he] at hse
      simp [isSuccessElem] at hse
    | ok t =>
      cases hp : parse (buf ++ t) with
      | some v => simp [List.cons_append, stream_json_formatting_from, hp]
      | none =>
        obtain ⟨e, he, hse⟩ := hex
        simp only [stream_json_formatting_from, hp, List.mem_cons] at he
        rcases he with he | he
        · rw [he] at hse; simp [isSuccessElem] at hse
        · have hrec := ih (buf ++ t) (ft + tok t) extra ⟨e, he, hse⟩
          simp only [List.cons_append, stream_json_formatting_from, hp]
          exact congrArg (List.cons _) hrec
    | other =>
      cases hp : parse (buf ++ "") with
      | some v =>
        rw [String.append_empty] at hp
        simp [List.cons_append, stream_json_formatting_from, hp]
      | none =>
        rw [String.append_empty] at hp
        obtain ⟨e, he, hse⟩ := hex
        simp only [stream_json_formatting_from, String.append_empty, hp,
          List.mem_cons] at he
        rcases he with he | he
        · rw [he] at hse; simp [isSuccessElem] at hse
        · have hrec := ih buf (ft + tok "") extra ⟨e, he, hse⟩
          simp only [List.cons_append, stream_json_formatting_from,
            String.append_empty, hp]
          exact congrArg (List.cons _) hrec

/-- Shape of a success element of the strict-JSON formatting loop: it
carries the value parsed from the buffer after the first chunk index k at
which the accumulated text parses, no chunk up to k is error-shaped, no
shorter accumulation parses, and its usage is the phase-1 usage combined
field-wise with the phase-2 usage at k. -/
theorem jf_success_shape {J : Type} (tok : String → Nat) (parse : String → Option J)
    (jp : String) (initial : Usage) :
    ∀ (cs : List Chunk) (buf : String) (ft : Nat),
      ∀ e ∈ stream_json_formatting_from tok parse jp initial buf ft cs,
        isSuccessElem e = true →
        ∃ k v, 1 ≤ k ∧ k ≤ cs.length
          ∧ (∀ c ∈ cs.take k, isErrChunk c = false)
          ∧ parse (buf ++ accText (cs.take k)) = some v
          ∧ (∀ j, 1 ≤ j → j < k → parse (buf ++ accText (cs.take j)) = none)
          ∧ e = ⟨.json v, combine_usage initial
              (phase2Usage tok jp (ft + sumTok tok (cs.take k)))⟩ := by
  intro cs
  induction cs with
  | nil =>
    intro buf ft e he hse
    simp [stream_json_formatting_from] at he
    rw [he] at hse
    simp [isSuccessElem] at hse
  | cons c rest ih =>
    intro buf ft e he hse
    cases c with
    | err m =>
      simp [stream_json_formatting_from] at he
      rw [he] at hse
      simp [isSuccessElem] at hse
    | ok t =>
      cases hp : parse (buf ++ t) with
      | some v =>
        simp [stream_json_formatting_from, hp] at he
        refine ⟨1, v, le_refl 1, by simp, ?_, ?_, by intro j h1 h2; omega, ?_⟩
        · intro c hc
          simp [List.take_succ_cons] at hc
          rw [hc]; rfl
        · simpa [List.take_succ_cons, accText, chunkText, String.append_empty] using hp
        · simp [he, List.take_succ_cons, sumTok, chunkText, accText]
      | none =>
        simp only [stream_json_formatting_from, hp, List.mem_cons] at he
        rcases he with he | he
        · rw [he] at hse; simp [isSuccessElem] at hse
        · obtain ⟨k, v, hk1, hklen, herr2, hparse, hfirst, hee⟩ :=
            ih (buf ++ t) (ft + tok t) e he hse
          refine ⟨k + 1, v, by omega, by simpa using Nat.succ_le_succ hklen,
            ?_, ?_, ?_, ?_⟩
          · intro c hc
            simp only [List.take_succ_cons, List.mem_cons] at hc
            rcases hc with hc | hc
            · rw [hc]; rfl
            · exact herr2 c hc
          · rw [List.take_succ_cons,
              show accText (Chunk.ok t :: rest.take k)
                = t ++ accText (rest.take k) from rfl,
              ← String.append_assoc]
            exact hparse
          · intro j hj1 hjk
            cases j with
            | zero => omega
            | succ j2 =>
              rw [List.take_succ_cons,
                show accText (Chunk.ok t :: rest.take j2)
                  = t ++ accText (rest.take j2) from rfl,
                ← String.append_assoc]
              cases Nat.eq_zero_or_pos j2 with
              | inl h0 =>
                subst h0
                simpa [accText, String.append_empty] using hp
              | inr hpos => exact hfirst j2 hpos (by omega)
          · rw [List.take_succ_cons]
            simp [hee, sumTok, chunkText, Nat.add_assoc]
    | other =>
      cases hp : parse (buf ++ "") with
      | some v =>
        rw [String.append_empty] at hp
        simp [stream_json_formatting_from, hp] at he
        refine ⟨1, v, le_refl 1, by simp, ?_, ?_, by intro j h1 h2; omega, ?_⟩
        · intro c hc
          simp [List.take_succ_cons] at hc
          rw [hc]; rfl
        · simpa [List.take_succ_cons, accText, chunkText, String.append_empty,
            str_empty_append] using hp
        · simp [he, List.take_succ_cons, sumTok, chunkText, accText]
      | none =>
        rw [String.append_empty] at hp
        simp only [stream_json_formatting_from, String.append_empty, hp,
          List.mem_cons] at he
        rcases he with he | he
        · rw [he] at hse; simp [isSuccessElem] at hse
        · obtain ⟨k, v, hk1, hklen, herr2, hparse, hfirst, hee⟩ :=
            ih buf (ft + tok "") e he hse
          refine ⟨k + 1, v, by omega, by simpa using Nat.succ_le_succ hklen,
            ?_, ?_, ?_, ?_⟩
          · intro c hc
            simp only [List.take_succ_cons, List.mem_cons] at hc
            rcases hc with hc | hc
            · rw [hc]; rfl
            · exact herr2 c hc
          · rw [List.take_succ_cons,
              show accText (Chunk.other :: rest.take k)
                = "" ++ accText (rest.take k) from rfl,
              str_empty_append]
            exact hparse
          · intro j hj1 hjk
            cases j with
            | zero => omega
            | succ j2 =>
              rw [List.take_succ_cons,
                show accText (Chunk.other :: rest.take j2)
                  = "" ++ accText (rest.take j2) from rfl,
                str_empty_append]
              cases Nat.eq_zero_or_pos j2 with
              | inl h0 =>
                subst h0
                simpa [accText, String.append_empty] using hp
              | inr hpos => exact hfirst j2 hpos (by omega)
          · rw [List.take_succ_cons]
            simp [hee, sumTok, chunkText, Nat.add_assoc]

/-- When no chunk is error-shaped and no accumulation ever parses, the
strict-JSON formatting loop yields streaming-status elements followed by
exactly one final error-status element whose usage is frozen at the total
accumulated token count. -/
theorem jf_exhaust {J : Type} (tok : String → Nat) (parse : String → Option J)
    (jp : String) (initial : Usage) :
    ∀ (cs : List Chunk) (buf : String) (ft : Nat),
      (∀ c ∈ cs, isErrChunk c = false) →
      (∀ e ∈ stream_json_formatting_from tok parse jp initial buf ft cs,
        isSuccessElem e = false) →
      ∃ pre, stream_json_formatting_from tok parse jp initial buf ft cs
          = pre ++ [⟨.safe (create_safe_json_response "error" jsonFailMsg none),
              combine_usage initial (phase2Usage tok jp (ft + sumTok tok cs))⟩]
        ∧ ∀ e ∈ pre, isErrStatusElem e = false ∧ isSuccessElem e = false := by
  intro cs
  induction cs with
  | nil =>
    intro buf ft _ _
    refine ⟨[], ?_, by simp⟩
    simp [stream_json_formatting_from, sumTok]
  | cons c rest ih =>
    intro buf ft herr hns
    cases c with
    | err m =>
      have := herr (.err m) (by simp)
      simp [isErrChunk] at this
    | ok t =>
      cases hp : parse (buf ++ t) with
      | some v =>
        have := hns ⟨.json v, combine_usage initial (phase2Usage tok jp (ft + tok t))⟩
          (by simp [stream_json_formatting_from, hp])
        simp [isSuccessElem] at this
      | none =>
        obtain ⟨pre, hpre, hprop⟩ := ih (buf ++ t) (ft + tok t)
          (fun c hc => herr c (by simp [hc]))
          (fun e he => hns e (by
            simp only [stream_json_formatting_from, hp, List.mem_cons]
            right; exact he))
        refine ⟨⟨.safe (create_safe_json_response "streaming" t none),
            combine_usage initial (phase2Usage tok jp (ft + tok t))⟩ :: pre, ?_, ?_⟩
        · have hnat : ft + sumTok tok (Chunk.ok t :: rest)
              = ft + tok t + sumTok tok rest := by
            simp [sumTok, chunkText]
            omega
          rw [hnat]
          simp only [stream_json_formatting_from, hp, List.cons_append, hpre]
        · intro e he
          rcases List.mem_cons.mp he with h | h
          · rw [h]
            exact ⟨rfl, rfl⟩
          · exact hprop e h
    | other =>
      cases hp : parse (buf ++ "") with
      | some v =>
        rw [String.append_empty] at hp
        have := hns ⟨.json v, combine_usage initial (phase2Usage tok jp (ft + tok ""))⟩
          (by simp [stream_json_formatting_from, hp])
        simp [isSuccessElem] at this
      | none =>
        rw [String.append_empty] at hp
        obtain ⟨pre, hpre, hprop⟩ := ih buf (ft + tok "")
          (fun c hc => herr c (by simp [hc]))
          (fun e he => hns e (by
            simp only [stream_json_formatting_from, String.append_empty, hp,
              List.mem_cons]
            right; exact he))
        refine ⟨⟨.safe (create_safe_json_response "streaming" "" none),
            combine_usage initial (phase2Usage tok jp (ft + tok ""))⟩ :: pre, ?_, ?_⟩
        · have hnat : ft + sumTok tok (Chunk.other :: rest)
              = ft + tok "" + sumTok tok rest := by
            simp [sumTok, chunkText]
            omega
          rw [hnat]
          simp only [stream_json_formatting_from, String.append_empty, hp,
            List.cons_append, hpre]
        · intro e he
          rcases List.mem_cons.mp he with h | h
          · rw [h]
            exact ⟨rfl, rfl⟩
          · exact hprop e h

/-- C3: strict-JSON streaming protocol.  The yielded sequence contains at
most one success element; every element before the last is not a success;
once a success element exists, appending further backend chunks leaves the
output unchanged (no backend output after the successful parse is
consumed); each success element carries the JSON value parsed at the first
chunk index whose accumulated text parses, with the field-wise combined
phase-1 and phase-2 usage; and when the stream ends with no error chunk
and no accumulation ever parsing, the output is streaming-status elements
followed by exactly one final error-status element with the combined usage
frozen at its last value. -/
theorem strict_json_stream_protocol (J : Type) (tok : String → Nat)
    (parse : String → Option J) (jp : String) (initial : Usage) (cs : List Chunk) :
    ((stream_json_formatting tok parse jp initial cs).countP isSuccessElem ≤ 1)
    ∧ (∀ e ∈ (stream_json_formatting tok parse jp initial cs).dropLast,
        isSuccessElem e = false)
    ∧ (∀ extra : List Chunk,
        (∃ e ∈ stream_json_formatting tok parse jp initial cs,
          isSuccessElem e = true) →
        stream_json_formatting tok parse jp initial (cs ++ extra)
          = stream_json_formatting tok parse jp initial cs)
    ∧ (∀ e ∈ stream_json_formatting tok parse jp initial cs,
        isSuccessElem e = true →
        ∃ k v, 1 ≤ k ∧ k ≤ cs.length
          ∧ (∀ c ∈ cs.take k, isErrChunk c = false)
          ∧ parse (accText (cs.take k)) = some v
          ∧ (∀ j, 1 ≤ j → j < k → parse (accText (cs.take j)) = none)
          ∧ e = ⟨.json v, combine_usage initial
              (phase2Usage tok jp (sumTok tok (cs.take k)))⟩)
    ∧ ((∀ c ∈ cs, isErrChunk c = false) →
        (∀ e ∈ stream_json_formatting tok parse jp initial cs,
          isSuccessElem e = false) →
        ∃ pre, stream_json_formatting tok parse jp initial cs
            = pre ++ [⟨.safe (create_safe_json_response "error" jsonFailMsg none),
                combine_usage initial (phase2Usage tok jp (sumTok tok cs))⟩]
          ∧ ∀ e ∈ pre, isErrStatusElem e = false ∧ isSuccessElem e = false) := by
  refine ⟨jf_count tok parse jp initial cs "" 0,
    jf_success_last tok parse jp initial cs "" 0,
    fun extra h => jf_no_consume tok parse jp initial cs "" 0 extra h, ?_, ?_⟩
  · intro e he hse
    obtain ⟨k, v, h1, h2, h3, h4, h5, h6⟩ :=
      jf_success_shape tok parse jp initial cs "" 0 e he hse
    refine ⟨k, v, h1, h2, h3, by rwa [str_empty_append] at h4,
      fun j hj1 hj2 => ?_, by simpa using h6⟩
    have := h5 j hj1 hj2
    rwa [str_empty_append] at this
  · intro h1 h2
    have := jf_exhaust tok parse jp initial cs "" 0 h1 h2
    simpa using this

/-- Witness for C3: at a concrete two-chunk stream whose accumulation
parses after the second chunk, appending a further chunk leaves the
yielded sequence unchanged. -/
theorem strict_json_stream_protocol_witness :
    stream_json_formatting String.length
        (fun s => if s = "ab" then some 0 else none) "jp" ⟨1, 0, 1⟩
        ([Chunk.ok "a", Chunk.ok "b"] ++ [Chunk.ok "c"])
      = stream_json_formatting String.length
          (fun s => if s = "ab" then some 0 else none) "jp" ⟨1, 0, 1⟩
          [Chunk.ok "a", Chunk.ok "b"] :=
  (strict_json_stream_protocol Nat String.length
      (fun s => if s = "ab" then some 0 else none) "jp" ⟨1, 0, 1⟩
      [Chunk.ok "a", Chunk.ok "b"]).2.2.1 [Chunk.ok "c"] (by decide)
